import Mathlib

/-!
# Verification of the Bitcoin message signature verifier

A shallow embedding of the repository's verification core
(`src/verify.ts`, `src/index.ts`, `src/utils.ts`, `src/rpc.ts`) in Lean 4,
together with theorems settling the frozen claims about it.

Conventions of the embedding:

* JavaScript `Uint8Array` values are `List Nat` with every element < 256.
* JavaScript `bigint` arithmetic is `Nat`/`Int` arithmetic; JS `%` on
  bigints is truncated remainder (`Int.tmod`), JS `/` truncated division.
* JS 32-bit operations (`>>> 0`, `<<`, `|`, `^`, `&`, `~`) on numbers are
  modelled as `Nat` operations modulo `2^32`; for the byte extractions
  `(n >> k) & 0xff` with `0 ≤ n < 2^32` the JS signed shift agrees with
  the unsigned `Nat` shift, which is what is used here.
* Throwing functions return `Except String α` (the string is the thrown
  `Error`'s message) or `Option`.
* The platform SHA-256 primitive (`crypto.subtle.digest`) is not part of
  this repository; it is modelled as an abstract parameter
  `sha : List Nat → List Nat` threaded through the definitions.
* `while` loops over bigints are translated as well-founded recursion on
  the decreasing scrutinee.
-/

namespace BtcVerify

/-! ## Byte-level utilities -/

/-- Big-endian interpretation of a byte list as a natural number.
Embeds `BigInt('0x' + bytesToHex(bytes))` from `src/verify.ts`. -/
def beNat (bs : List Nat) : Nat :=
  bs.foldl (fun acc b => acc * 256 + b) 0

/-- `k`-byte little-endian encoding of `n` (least significant byte first). -/
def leBytes : Nat → Nat → List Nat
  | 0, _ => []
  | k + 1, n => n % 256 :: leBytes k (n / 256)

/-- `k`-byte big-endian encoding of `n`.  Embeds the
`x.toString(16).padStart(64, '0')` / parse-byte-pairs idiom from
`publicKeyToAddress` in `src/verify.ts`, which for `n < 2^(8k)` produces
exactly the big-endian bytes. -/
def beBytes : Nat → Nat → List Nat
  | 0, _ => []
  | k + 1, n => beBytes k (n / 256) ++ [n % 256]

/-- Overwrite the slice of `arr` starting at `off` with `src`; embeds
`Uint8Array.prototype.set(src, off)` for in-range writes (the only writes
the source performs). -/
def writeAt (arr : List Nat) (off : Nat) (src : List Nat) : List Nat :=
  arr.take off ++ src ++ arr.drop (off + src.length)

/-- UTF-8 encoding of a single Unicode code point. -/
def utf8EncodeChar (c : Nat) : List Nat :=
  if c < 0x80 then [c]
  else if c < 0x800 then
    [0xc0 + c / 64, 0x80 + c % 64]
  else if c < 0x10000 then
    [0xe0 + c / 4096, 0x80 + c / 64 % 64, 0x80 + c % 64]
  else
    [0xf0 + c / 262144, 0x80 + c / 4096 % 64, 0x80 + c / 64 % 64, 0x80 + c % 64]

/-- UTF-8 encoding of a string; embeds `new TextEncoder().encode(s)`. -/
def utf8Encode (s : String) : List Nat :=
  s.data.foldr (fun c acc => utf8EncodeChar c.toNat ++ acc) []

/-! ## Varint encoding (`encodeVarint`, `src/verify.ts` / `src/utils.ts`) -/

/-- Bitcoin varint encoder, translated from `encodeVarint`:
one byte below `0xfd`; `0xfd` + 2-byte LE up to `0xffff`; `0xfe` + 4-byte
LE up to `0xffffffff`; larger values throw
`'Number too large for varint encoding'` (modelled as `none`). -/
def encodeVarint (n : Nat) : Option (List Nat) :=
  if n < 0xfd then
    some [n]
  else if n ≤ 0xffff then
    some [0xfd, n % 256, (n >>> 8) % 256]
  else if n ≤ 0xffffffff then
    some [0xfe, n % 256, (n >>> 8) % 256, (n >>> 16) % 256, (n >>> 24) % 256]
  else
    none

/-! ## RIPEMD-160 (`ripemd160`, `src/verify.ts` lines 172–299)

A direct translation of the pure-TypeScript implementation: the same round
constants, message-word permutations and rotate amounts, the same
little-endian padding and little-endian output serialisation.  JS 32-bit
coercions (`>>> 0`, and the signed results of `<<`/`|`/`~` feeding later
additions) are modelled as arithmetic modulo `2^32`, with which they agree
for the unsigned values the algorithm keeps. -/

/-- Round constants for the left processing line (`K_LEFT`). -/
def K_LEFT : List Nat := [0x00000000, 0x5a827999, 0x6ed9eba1, 0x8f1bbcdc, 0xa953fd4e]

/-- Round constants for the right processing line (`K_RIGHT`). -/
def K_RIGHT : List Nat := [0x50a28be6, 0x5c4dd124, 0x6d703ef3, 0x7a6d76e9, 0x00000000]

/-- Message word selection order for the left line (`R_LEFT`). -/
def R_LEFT : List Nat := [
  0, 1, 2, 3, 4, 5, 6, 7, 8, 9, 10, 11, 12, 13, 14, 15, 7, 4, 13, 1, 10, 6, 15, 3, 12, 0, 9, 5, 2,
  14, 11, 8, 3, 10, 14, 4, 9, 15, 8, 1, 2, 7, 0, 6, 13, 11, 5, 12, 1, 9, 11, 10, 0, 8, 12, 4, 13,
  3, 7, 15, 14, 5, 6, 2, 4, 0, 5, 9, 7, 12, 2, 10, 14, 1, 3, 8, 11, 6, 15, 13]

/-- Message word selection order for the right line (`R_RIGHT`). -/
def R_RIGHT : List Nat := [
  5, 14, 7, 0, 9, 2, 11, 4, 13, 6, 15, 8, 1, 10, 3, 12, 6, 11, 3, 7, 0, 13, 5, 10, 14, 15, 8, 12,
  4, 9, 1, 2, 15, 5, 1, 3, 7, 14, 6, 9, 11, 8, 12, 2, 10, 0, 4, 13, 8, 6, 4, 1, 3, 11, 15, 0, 5,
  12, 2, 13, 9, 7, 10, 14, 12, 15, 10, 4, 1, 5, 8, 7, 6, 2, 13, 14, 0, 3, 9, 11]

/-- Left-rotate amounts for the left line (`S_LEFT`). -/
def S_LEFT : List Nat := [
  11, 14, 15, 12, 5, 8, 7, 9, 11, 13, 14, 15, 6, 7, 9, 8, 7, 6, 8, 13, 11, 9, 7, 15, 7, 12, 15, 9,
  11, 7, 13, 12, 11, 13, 6, 7, 14, 9, 13, 15, 14, 8, 13, 6, 5, 12, 7, 5, 11, 12, 14, 15, 14, 15,
  9, 8, 9, 14, 5, 6, 8, 6, 5, 12, 9, 15, 5, 11, 6, 8, 13, 12, 5, 12, 13, 14, 11, 8, 5, 6]

/-- Left-rotate amounts for the right line (`S_RIGHT`). -/
def S_RIGHT : List Nat := [
  8, 9, 9, 11, 13, 15, 15, 5, 7, 7, 8, 11, 14, 14, 12, 6, 9, 13, 15, 7, 12, 8, 9, 11, 7, 7, 12, 7,
  6, 15, 13, 11, 9, 7, 15, 11, 8, 6, 6, 14, 12, 13, 5, 14, 13, 13, 7, 5, 15, 5, 8, 11, 14, 14, 6,
  14, 6, 9, 12, 9, 12, 5, 15, 8, 8, 5, 12, 9, 12, 5, 14, 6, 8, 13, 6, 5, 15, 13, 11, 11]

/-- 32-bit left rotation (`rotateLeft`), as an unsigned value. -/
def rotl32 (x s : Nat) : Nat := ((x <<< s) ||| (x >>> (32 - s))) % 4294967296

/-- 32-bit complement: JS `~x` reduced modulo `2^32`. -/
def not32 (x : Nat) : Nat := x ^^^ 0xffffffff

/-- The RIPEMD-160 round function `f`, different for each group of 16
rounds. -/
def ripemdF (j x y z : Nat) : Nat :=
  if j < 16 then x ^^^ y ^^^ z
  else if j < 32 then (x &&& y) ||| (not32 x &&& z)
  else if j < 48 then (x ||| not32 y) ^^^ z
  else if j < 64 then (x &&& z) ||| (y &&& not32 z)
  else x ^^^ (y ||| not32 z)

/-- Working state of one RIPEMD-160 chunk: the left line `al..el` and the
right line `ar..er`. -/
structure RState where
  al : Nat
  bl : Nat
  cl : Nat
  dl : Nat
  el : Nat
  ar : Nat
  br : Nat
  cr : Nat
  dr : Nat
  er : Nat
deriving DecidableEq

/-- One of the 80 rounds: both processing lines, exactly as the assignment
sequence in the source rotates the five working variables. -/
def ripemdRound (w : Nat → Nat) (st : RState) (j : Nat) : RState :=
  let tl0 := (st.al + ripemdF j st.bl st.cl st.dl + w (R_LEFT.getD j 0) +
      K_LEFT.getD (j / 16) 0) % 4294967296
  let tl := (rotl32 tl0 (S_LEFT.getD j 0) + st.el) % 4294967296
  let tr0 := (st.ar + ripemdF (79 - j) st.br st.cr st.dr + w (R_RIGHT.getD j 0) +
      K_RIGHT.getD (j / 16) 0) % 4294967296
  let tr := (rotl32 tr0 (S_RIGHT.getD j 0) + st.er) % 4294967296
  { al := st.el, bl := tl, cl := st.bl, dl := rotl32 st.cl 10, el := st.dl,
    ar := st.er, br := tr, cr := st.br, dr := rotl32 st.cr 10, er := st.dr }

/-- The `i`-th 32-bit little-endian word of a 64-byte chunk
(`view.getUint32(chunk + i * 4, true)`). -/
def chunkWord (chunk : List Nat) (i : Nat) : Nat :=
  chunk.getD (4 * i) 0 + 256 * chunk.getD (4 * i + 1) 0 +
    65536 * chunk.getD (4 * i + 2) 0 + 16777216 * chunk.getD (4 * i + 3) 0

/-- Process one 64-byte chunk: 80 dual rounds followed by the combination
of the two lines into the five running hash words. -/
def processChunk (h : List Nat) (chunk : List Nat) : List Nat :=
  let h0 := h.getD 0 0
  let h1 := h.getD 1 0
  let h2 := h.getD 2 0
  let h3 := h.getD 3 0
  let h4 := h.getD 4 0
  let st := (List.range 80).foldl (ripemdRound (chunkWord chunk))
    { al := h0, bl := h1, cl := h2, dl := h3, el := h4,
      ar := h0, br := h1, cr := h2, dr := h3, er := h4 }
  [(h1 + st.cl + st.dr) % 4294967296,
   (h2 + st.dl + st.er) % 4294967296,
   (h3 + st.el + st.ar) % 4294967296,
   (h4 + st.al + st.br) % 4294967296,
   (h0 + st.bl + st.cr) % 4294967296]

/-- RIPEMD-160 message padding: a `0x80` byte, zeros up to 8 bytes short of
a multiple of 64, then the bit length as a 64-bit little-endian integer. -/
def ripemdPad (data : List Nat) : List Nat :=
  let msgLen := data.length
  let bitLen := msgLen * 8
  let paddedLen := (msgLen + 9 + 63) / 64 * 64
  data ++ [0x80] ++ List.replicate (paddedLen - msgLen - 9) 0 ++
    leBytes 4 (bitLen % 4294967296) ++ leBytes 4 (bitLen / 4294967296)

/-- Split a padded message into `k` chunks of 64 bytes. -/
def splitChunks : Nat → List Nat → List (List Nat)
  | 0, _ => []
  | k + 1, l => l.take 64 :: splitChunks k (l.drop 64)

/-- RIPEMD-160, translated from `ripemd160` in `src/verify.ts`: pad, fold
the chunk processor over the 64-byte chunks starting from the standard
initial state, serialise the five state words little-endian. -/
def ripemd160 (data : List Nat) : List Nat :=
  let padded := ripemdPad data
  let hs := (splitChunks (padded.length / 64) padded).foldl processChunk
    [0x67452301, 0xefcdab89, 0x98badcfe, 0x10325476, 0xc3d2e1f0]
  hs.foldr (fun h acc => leBytes 4 h ++ acc) []

/-! ## secp256k1 elliptic-curve arithmetic (`src/verify.ts` / `src/utils.ts`) -/

/-- secp256k1 field prime (`SECP256K1_P`). -/
def SECP256K1_P : Nat :=
  0xfffffffffffffffffffffffffffffffffffffffffffffffffffffffefffffc2f

/-- secp256k1 group order (`SECP256K1_N`). -/
def SECP256K1_N : Nat :=
  0xfffffffffffffffffffffffffffffffebaaedce6af48a03bbfd25e8cd0364141

/-- A point on the curve (`interface Point`); the point at infinity is the
surrounding `Option`'s `none`, matching the source's `null`. -/
structure Point where
  x : Nat
  y : Nat
deriving DecidableEq

/-- The secp256k1 generator point `G`. -/
def G : Point :=
  ⟨0x79be667ef9dcbbac55a06295ce870b07029bfcdb2dce28d959f2815b16f81798,
   0x483ada7726a3c4655da4fbfc0e1108a8fd17b448a68554199c47d08ffb10d4b8⟩

/-- The extended-Euclid loop of `modInverse`: state `(old_r, r, old_s, s)`;
the remainders stay non-negative, the Bezout coefficients are integers. -/
def egcdLoop (old_r r : Nat) (old_s s : Int) : Nat × Int :=
  if h : r = 0 then (old_r, old_s)
  else egcdLoop r (old_r % r) s (old_s - ((old_r / r : Nat) : Int) * s)
termination_by r
decreasing_by exact Nat.mod_lt _ (Nat.pos_of_ne_zero h)

/-- Modular multiplicative inverse, translated from `modInverse`: negative
inputs are first normalised with JS truncated remainder (`Int.tmod`); a
non-trivial gcd yields `0`; a negative Bezout coefficient is shifted up by
the modulus. -/
def modInverse (a : Int) (m : Nat) : Nat :=
  let a0 : Int := if a < 0 then (Int.tmod a m + m).tmod m else a
  let p := egcdLoop a0.toNat m 1 0
  if p.1 > 1 then 0 else if p.2 < 0 then (p.2 + m).toNat else p.2.toNat

/-- Normalisation step shared by both `pointAdd` branches: the source's
`v < 0n ? v + P : v` applied to a truncated remainder, which lands in
`[0, P)`. -/
def normP (v : Int) : Nat := (if v < 0 then v + SECP256K1_P else v).toNat

/-- Point addition on secp256k1, translated from `pointAdd`: identity
cases for the point at infinity, doubling with slope `3x²·(2y)⁻¹`, inverse
points summing to infinity, and the general chord slope.  Intermediate
values use JS truncated remainder and are normalised on return. -/
def pointAdd (p1 p2 : Option Point) : Option Point :=
  match p1, p2 with
  | none, q => q
  | p, none => p
  | some p1, some p2 =>
    if p1.x = p2.x then
      if p1.y = p2.y then
        let s : Int :=
          Int.tmod (3 * (p1.x : Int) * p1.x * modInverse (2 * (p1.y : Nat) : Int) SECP256K1_P)
            SECP256K1_P
        let x3 : Int := Int.tmod (s * s - 2 * (p1.x : Int)) SECP256K1_P
        let y3 : Int := Int.tmod (s * ((p1.x : Int) - x3) - (p1.y : Int)) SECP256K1_P
        some ⟨normP x3, normP y3⟩
      else none
    else
      let s : Int :=
        Int.tmod (((p2.y : Int) - (p1.y : Int)) *
          modInverse ((p2.x : Int) - (p1.x : Int)) SECP256K1_P) SECP256K1_P
      let x3 : Int := Int.tmod (s * s - (p1.x : Int) - (p2.x : Int)) SECP256K1_P
      let y3 : Int := Int.tmod (s * ((p1.x : Int) - x3) - (p1.y : Int)) SECP256K1_P
      some ⟨normP x3, normP y3⟩

/-- The double-and-add loop of `pointMultiply`.  The source's non-null
assertion on `pointAdd(addend, addend)` is a compile-time cast with no
runtime effect, so the addend is threaded as an optional point exactly as
at runtime (where a null addend leaves every later sum unchanged). -/
def pointMulLoop (result addend : Option Point) (k : Nat) : Option Point :=
  if k = 0 then result
  else pointMulLoop (if k % 2 = 1 then pointAdd result addend else result)
    (pointAdd addend addend) (k / 2)
termination_by k
decreasing_by exact Nat.div_lt_self (Nat.pos_of_ne_zero (by assumption)) (by decide)

/-- Scalar multiplication, translated from `pointMultiply`. -/
def pointMultiply (k : Nat) (point : Point) : Option Point :=
  if k = 0 then none
  else if k = 1 then some point
  else pointMulLoop none (some point) k

/-- The square-and-multiply loop of `modPow`. -/
def modPowLoop (result base exp mod : Nat) : Nat :=
  if exp = 0 then result
  else modPowLoop (if exp % 2 = 1 then result * base % mod else result)
    (base * base % mod) (exp / 2) mod
termination_by exp
decreasing_by exact Nat.div_lt_self (Nat.pos_of_ne_zero (by assumption)) (by decide)

/-- Modular exponentiation, translated from `modPow`. -/
def modPow (base exp mod : Nat) : Nat := modPowLoop 1 (base % mod) exp mod

/-- ECDSA public-key recovery, translated from `recoverPublicKey`
(`src/verify.ts` lines 430–470 / `src/utils.ts` lines 163–199): parse
`r ‖ s` big-endian, reject `r`/`s` outside the group order, derive the
candidate `R` abscissa `x = r + (recoveryId >> 1)·N` rejecting `x ≥ P`,
take the square root of `x³ + 7` via the `(P+1)/4` exponent, match the
parity bit, and compute `Q = r⁻¹·(s·R − e·G)`; every unrecoverable case
returns `none` (the source's `null`), never an exception. -/
def recoverPublicKey (messageHash signature : List Nat) (recoveryId : Nat) : Option Point :=
  if signature.length ≠ 64 then none
  else
    let r := beNat (signature.take 32)
    let s := beNat ((signature.drop 32).take 32)
    let e := beNat messageHash
    if r ≥ SECP256K1_N ∨ s ≥ SECP256K1_N then none
    else
      let x := r + (recoveryId >>> 1) * SECP256K1_N
      if x ≥ SECP256K1_P then none
      else
        let ySq := (x * x * x + 7) % SECP256K1_P
        let y0 := modPow ySq ((SECP256K1_P + 1) / 4) SECP256K1_P
        let y := if y0 % 2 ≠ recoveryId &&& 1 then SECP256K1_P - y0 else y0
        let rInv := modInverse (r : Int) SECP256K1_N
        match pointMultiply s ⟨x, y⟩, pointMultiply e G with
        | some sR, some eG =>
          match pointAdd (some sR) (some ⟨eG.x, SECP256K1_P - eG.y⟩) with
          | some diff => pointMultiply rInv diff
          | none => none
        | _, _ => none

/-! ## Base58 and address derivation (`src/verify.ts` lines 532–631) -/

/-- The Bitcoin Base58 alphabet (`BASE58_ALPHABET`). -/
def BASE58_ALPHABET : String :=
  "123456789ABCDEFGHJKLMNPQRSTUVWXYZabcdefghijkmnopqrstuvwxyz"

/-- The repeated division loop of `base58Encode`, emitting most
significant digit first. -/
def base58Digits (num : Nat) : List Char :=
  if h : num = 0 then []
  else base58Digits (num / 58) ++ [BASE58_ALPHABET.data.getD (num % 58) ' ']
termination_by num
decreasing_by exact Nat.div_lt_self (Nat.pos_of_ne_zero h) (by decide)

/-- Leading zero bytes, each rendered as `'1'` by `base58Encode`. -/
def countLeadingZeros : List Nat → Nat
  | [] => 0
  | b :: rest => if b = 0 then countLeadingZeros rest + 1 else 0

/-- Base58 encoding, translated from `base58Encode`: the bytes as one
big-endian integer converted to base 58, preceded by one `'1'` per leading
zero byte. -/
def base58Encode (bytes : List Nat) : String :=
  let num := bytes.foldl (fun n b => n * 256 + b) 0
  ⟨List.replicate (countLeadingZeros bytes) '1' ++ base58Digits num⟩

/-- Double SHA-256 (`doubleSha256`), over the abstract platform SHA-256
primitive. -/
def doubleSha256 (sha : List Nat → List Nat) (data : List Nat) : List Nat :=
  sha (sha data)

/-- Public key to Base58Check address, translated from
`publicKeyToAddress`: encode the key (33-byte parity-prefixed `x`, or
65-byte `0x04 ‖ x ‖ y` — byte-wise equal to the source's fixed-size-array
writes since every byte is assigned), SHA-256 it, RIPEMD-160 the digest,
prepend version byte `0x00`, append the first four bytes of the
double-SHA-256 checksum, Base58-encode the 25 bytes. -/
def publicKeyToAddress (sha : List Nat → List Nat) (publicKey : Point)
    (compressed : Bool) : String :=
  let publicKeyBytes :=
    if compressed then
      (if publicKey.y % 2 = 0 then 0x02 else 0x03) :: beBytes 32 publicKey.x
    else
      0x04 :: (beBytes 32 publicKey.x ++ beBytes 32 publicKey.y)
  let ripemd160Hash := ripemd160 (sha publicKeyBytes)
  let versioned := writeAt (List.replicate 21 0) 1 (ripemd160Hash.take 20)
  let checksum := doubleSha256 sha versioned
  let fullAddress := writeAt (writeAt (List.replicate 25 0) 0 versioned) 21 (checksum.take 4)
  base58Encode fullAddress

/-! ## Message hashing (`createMessageHash`, `src/verify.ts` lines 504–530) -/

/-- The Bitcoin message-signing prefix literal. -/
def messageSigningLiteral : String := "Bitcoin Signed Message:\n"

/-- Bitcoin message hash, translated from `createMessageHash`: allocate a
zeroed buffer of the exact total size and copy varint(prefix length),
prefix, varint(message length) and message into it at running offsets,
then double-SHA-256 the result.  A message too long for the varint
encoder propagates that failure (`none`). -/
def createMessageHash (sha : List Nat → List Nat) (messageBytes : List Nat) :
    Option (List Nat) :=
  let prefixBytes := utf8Encode messageSigningLiteral
  match encodeVarint prefixBytes.length, encodeVarint messageBytes.length with
  | some prefixLength, some messageLength =>
    let total := prefixLength.length + prefixBytes.length +
      messageLength.length + messageBytes.length
    let m1 := writeAt (List.replicate total 0) 0 prefixLength
    let m2 := writeAt m1 prefixLength.length prefixBytes
    let m3 := writeAt m2 (prefixLength.length + prefixBytes.length) messageLength
    let m4 := writeAt m3 (prefixLength.length + prefixBytes.length + messageLength.length)
      messageBytes
    some (doubleSha256 sha m4)
  | _, _ => none

/-! ## Base64 decoding

`base64ToBytes` in `src/verify.ts` turns `atob`'s binary string into a
byte array character-for-character; `atob` itself is a platform primitive.
Modelled from the spec: `atob` performs the WHATWG forgiving-base64
decode — ASCII whitespace is removed, up to two trailing `=` padding
characters are stripped when the length is a multiple of four, any other
out-of-alphabet character or a leftover length of one is an error
(modelled as `none`). -/

/-- Value of one Base64 alphabet character. -/
def base64CharIndex (c : Char) : Option Nat :=
  if 'A' ≤ c ∧ c ≤ 'Z' then some (c.toNat - 65)
  else if 'a' ≤ c ∧ c ≤ 'z' then some (c.toNat - 71)
  else if '0' ≤ c ∧ c ≤ '9' then some (c.toNat + 4)
  else if c = '+' then some 62
  else if c = '/' then some 63
  else none

/-- Decode a padding-stripped Base64 character sequence in groups of
four; a final group of two or three characters yields one or two bytes. -/
def base64DecodeGroups : List Char → Option (List Nat)
  | [] => some []
  | [c1, c2] => do
    let a ← base64CharIndex c1
    let b ← base64CharIndex c2
    pure [a * 4 + b / 16]
  | [c1, c2, c3] => do
    let a ← base64CharIndex c1
    let b ← base64CharIndex c2
    let c ← base64CharIndex c3
    pure [a * 4 + b / 16, b % 16 * 16 + c / 4]
  | c1 :: c2 :: c3 :: c4 :: rest => do
    let a ← base64CharIndex c1
    let b ← base64CharIndex c2
    let c ← base64CharIndex c3
    let d ← base64CharIndex c4
    let tail ← base64DecodeGroups rest
    pure ((a * 4 + b / 16) :: (b % 16 * 16 + c / 4) :: (c % 4 * 64 + d) :: tail)
  | _ => none

/-- Modelled from the spec: the platform `atob` (WHATWG forgiving-base64),
composed with the byte-per-character conversion of `base64ToBytes`. -/
def base64ToBytes (s : String) : Option (List Nat) :=
  let cs := s.data.filter fun c => ¬ (c = ' ' ∨ c = '\t' ∨ c = '\n' ∨ c = '\x0c' ∨ c = '\r')
  let cs :=
    if cs.length % 4 = 0 then
      if cs.reverse.take 2 = ['=', '='] then cs.dropLast.dropLast
      else if cs.reverse.take 1 = ['='] then cs.dropLast
      else cs
    else cs
  base64DecodeGroups cs

/-! ## The verification entry points (`verify`, `src/verify.ts` lines
43–91 / `src/index.ts` lines 25–64) -/

/-- A message argument: a string or raw bytes (`StringOrBytes`). -/
inductive StringOrBytes where
  | str (s : String)
  | bytes (b : List Nat)
deriving DecidableEq

/-- The verification parameters (`interface Payload`). -/
structure Payload where
  message : StringOrBytes
  address : String
  signature : String

/-- `typeof message === 'string' ? encoder.encode(message) : message`. -/
def messageBytesOf : StringOrBytes → List Nat
  | .str s => utf8Encode s
  | .bytes b => b

/-- The inner `for (const compressed of [true, false])` loop of `verify`:
return `true` at the first matching derived address. -/
def searchCompressions (sha : List Nat → List Nat) (publicKey : Point)
    (address : String) : List Bool → Bool
  | [] => false
  | c :: cs =>
    if publicKeyToAddress sha publicKey c = address then true
    else searchCompressions sha publicKey address cs

/-- The outer `for (let testRecoveryId = 0; ...)` loop of `verify`: for
each recovery id in order, recover a candidate key and try both
compression formats, stopping at the first match. -/
def searchRecoveryIds (sha : List Nat → List Nat) (messageHash signatureData : List Nat)
    (address : String) : List Nat → Bool
  | [] => false
  | id :: ids =>
    match recoverPublicKey messageHash signatureData id with
    | some publicKey =>
      if searchCompressions sha publicKey address [true, false] then true
      else searchRecoveryIds sha messageHash signatureData address ids
    | none => searchRecoveryIds sha messageHash signatureData address ids

/-- The body of `verify` after Base64 decoding: assert the 65-byte length
(reporting the actual length), assert the recovery flag in `[27, 34]`,
drop the flag byte, hash the message, and run the recovery search; an
exhausted search throws `'Unable to recover public key from signature'`. -/
def verifyBytes (sha : List Nat → List Nat) (messageBytes : List Nat)
    (address : String) (sigBytes : List Nat) : Except String Bool :=
  if sigBytes.length ≠ 65 then
    .error ("Invalid signature length: " ++ toString sigBytes.length ++ ", expected 65")
  else
    let recoveryFlag := sigBytes.headD 0
    if recoveryFlag < 27 then .error "Invalid recovery flag"
    else if 34 < recoveryFlag then .error "Invalid recovery flag"
    else
      let signatureData := sigBytes.tail
      match createMessageHash sha messageBytes with
      | none => .error "Number too large for varint encoding"
      | some messageHash =>
        if searchRecoveryIds sha messageHash signatureData address [0, 1, 2, 3] then
          .ok true
        else .error "Unable to recover public key from signature"

/-- `verify`, the default export: Base64-decode the signature (a decoding
failure is the platform `InvalidCharacterError`), then run the byte-level
verification. -/
def verify (sha : List Nat → List Nat) (p : Payload) : Except String Bool :=
  match base64ToBytes p.signature with
  | none => .error "InvalidCharacterError"
  | some sigBytes => verifyBytes sha (messageBytesOf p.message) p.address sigBytes

/-- `verifySafe`: the caught error is logged (I/O, outside the model) and
`false` is returned. -/
def verifySafe (sha : List Nat → List Nat) (p : Payload) : Bool :=
  match verify sha p with
  | .ok b => b
  | .error _ => false

/-! ## RPC verification client (`src/rpc.ts`)

The HTTP exchange itself (`fetch`, `response.json()`) is a platform
primitive; it is modelled as an `Except`-valued response: `.error` is a
rejected fetch/parse (network failure, malformed body), `.ok` is a parsed
JSON-RPC reply.  The response processing (`return result ?? fail(error)`)
and the `try`/`catch` of `verifySafe` are translated from the source. -/

/-- A parsed JSON-RPC reply: `result` is `none` when the field is
`null`/absent (JS nullish), `error` is the error member when present. -/
structure RpcResponse where
  result : Option Bool
  error : Option String
deriving DecidableEq

/-- Response processing of `rpc.verify`: `return result ?? fail(error)` —
a nullish `result` throws the response's `error` (or the rendering of an
absent one). -/
def rpcVerify (resp : RpcResponse) : Except String Bool :=
  match resp.result with
  | some b => .ok b
  | none => .error (resp.error.getD "undefined")

/-- `rpc.verify` over the modelled network: a rejected fetch or JSON parse
propagates; a parsed reply is processed. -/
def rpcVerifyNet (net : Except String RpcResponse) : Except String Bool :=
  match net with
  | .error e => .error e
  | .ok resp => rpcVerify resp

/-- `rpc.verifySafe`: wraps `rpc.verify` in `try`/`catch`, returning
`false` on any failure. -/
def rpcVerifySafe (net : Except String RpcResponse) : Bool :=
  match rpcVerifyNet net with
  | .ok b => b
  | .error _ => false

/-- The canonical scan order of the `verify` loops: recovery id ascending,
compressed before uncompressed for each id. -/
def searchOrder : List (Nat × Bool) :=
  [(0, true), (0, false), (1, true), (1, false), (2, true), (2, false), (3, true), (3, false)]

/-- Whether one (recovery id, compression) candidate matches the claimed
address. -/
def candidateMatches (sha : List Nat → List Nat) (messageHash signatureData : List Nat)
    (address : String) : Nat × Bool → Bool
  | (id, c) =>
    match recoverPublicKey messageHash signatureData id with
    | some pk => publicKeyToAddress sha pk c == address
    | none => false

/-! ## Payload parsing (`parsePayload` / `toHexString`, `src/verify.ts`
lines 97–134) -/

/-- The character class of the JS regex `\s` (without the `u` flag). -/
def isJsWhitespace (c : Char) : Bool :=
  let n := c.toNat
  n == 9 || n == 10 || n == 11 || n == 12 || n == 13 || n == 32 ||
    n == 0xa0 || n == 0x1680 || (0x2000 ≤ n && n ≤ 0x200a) ||
    n == 0x2028 || n == 0x2029 || n == 0x202f || n == 0x205f ||
    n == 0x3000 || n == 0xfeff

/-- The character class `[a-f\d\s]` under the `i` flag: a hex letter of
either case, a decimal digit, or JS whitespace. -/
def isHexWsChar (c : Char) : Bool :=
  let n := c.toNat
  (97 ≤ n && n ≤ 102) || (65 ≤ n && n ≤ 70) || (48 ≤ n && n ≤ 57) || isJsWhitespace c

/-- `toHexString`, translated from the source: the three assertions
(`startsWith('0x')`, even length, full match of `/^0x[a-f\d\s]+$/i`)
guard returning the substring after the prefix with the whitespace
stripped; any failed assertion is caught and yields `undefined` (`none`).
JS string length counts UTF-16 units where Lean counts code points; the
two agree on every string that passes the hex-character test, and both
conditions fail together otherwise. -/
def toHexString (str : String) : Option String :=
  if str.data.take 2 = ['0', 'x'] ∧ str.length % 2 = 0 ∧
      str.data.drop 2 ≠ [] ∧ (str.data.drop 2).all isHexWsChar then
    some ⟨(str.data.drop 2).filter fun c => !isJsWhitespace c⟩
  else none

/-- Value of a hex digit character; a non-digit yields 0, matching what
`parseInt`'s `NaN` becomes when stored into a `Uint8Array` (unreachable
on inputs that passed the hex test). -/
def hexDigitVal (c : Char) : Nat :=
  let n := c.toNat
  if 48 ≤ n ∧ n ≤ 57 then n - 48
  else if 97 ≤ n ∧ n ≤ 102 then n - 87
  else if 65 ≤ n ∧ n ≤ 70 then n - 55
  else 0

/-- The byte-pair decoding loop of `parsePayload`: the target array has
`⌊hex.length / 2⌋` slots (the constructor's `ToIndex` truncates a
fractional length), so an odd trailing digit is dropped. -/
def hexPairs : List Char → List Nat
  | c1 :: c2 :: rest => (hexDigitVal c1 * 16 + hexDigitVal c2) :: hexPairs rest
  | _ => []

/-- Lower-case hex digit of a nibble. -/
def natToHexDigit (n : Nat) : Char :=
  if n < 10 then Char.ofNat (48 + n) else Char.ofNat (87 + n)

/-- `bytesToHex(bytes, ' ').toUpperCase()`: two upper-case hex digits per
byte, space-delimited. -/
def bytesToHexUpperSpace (bytes : List Nat) : String :=
  String.intercalate " " (bytes.map fun b =>
    ⟨[(natToHexDigit (b / 16 % 16)).toUpper, (natToHexDigit (b % 16)).toUpper]⟩)

/-- JS `String(message)`: a string is itself; a `Uint8Array` joins its
elements' decimal renderings with commas. -/
def jsStringOf : StringOrBytes → String
  | .str s => s
  | .bytes b => String.intercalate "," (b.map toString)

/-- The message part of `parsePayload`'s result. -/
structure ParsedMessage where
  bytes : List Nat
  utf8 : String
  hex : Option String
deriving DecidableEq

/-- `parsePayload`'s full result. -/
structure ParsedPayload where
  address : String
  signature : String
  message : ParsedMessage

/-- `parsePayload`, translated from the source: a string message whose
`toHexString` is a non-empty string (JS truthiness: `undefined` and `""`
are both falsy) is decoded as byte pairs; any other string is UTF-8
encoded; a byte message keeps its bytes and renders the display string as
space-delimited upper-case hex.  Every branch is total — the function
cannot throw. -/
def parsePayload (p : Payload) : ParsedPayload :=
  let utf8 := jsStringOf p.message
  let hex := toHexString utf8
  match p.message with
  | .str s =>
    match hex with
    | some h =>
      if h.data ≠ [] then ⟨p.address, p.signature, ⟨hexPairs h.data, s, some h⟩⟩
      else ⟨p.address, p.signature, ⟨utf8Encode s, s, some h⟩⟩
    | none => ⟨p.address, p.signature, ⟨utf8Encode s, s, none⟩⟩
  | .bytes b => ⟨p.address, p.signature, ⟨b, bytesToHexUpperSpace b, hex⟩⟩

deriving instance DecidableEq for Except

end BtcVerify

namespace BtcVerify

/-! ## Theorems: varint (claim C4) -/

theorem leBytes_two (n : Nat) : leBytes 2 n = [n % 256, n / 256 % 256] := by
  simp [leBytes]

theorem leBytes_four (n : Nat) :
    leBytes 4 n = [n % 256, n / 256 % 256, n / 256 / 256 % 256, n / 256 / 256 / 256 % 256] := by
  simp [leBytes]

/-- **C4.** Varint boundaries: `0`–`252` encode to the single byte `n`;
`253`–`65535` encode to `0xfd` followed by the 2-byte little-endian value;
`65536`–`4294967295` encode to `0xfe` followed by the 4-byte little-endian
value; anything above `4294967295` fails to encode. -/
theorem encodeVarint_boundaries (n : Nat) :
    (n ≤ 252 → encodeVarint n = some [n]) ∧
    (253 ≤ n → n ≤ 65535 → encodeVarint n = some (0xfd :: leBytes 2 n)) ∧
    (65536 ≤ n → n ≤ 4294967295 → encodeVarint n = some (0xfe :: leBytes 4 n)) ∧
    (4294967295 < n → encodeVarint n = none) := by
  refine ⟨?_, ?_, ?_, ?_⟩
  · intro h
    simp [encodeVarint, Nat.lt_succ_of_le h, show n < 0xfd from Nat.lt_succ_of_le h]
  · intro h1 h2
    have hge : ¬ n < 0xfd := by omega
    have hle : n ≤ 0xffff := h2
    simp only [encodeVarint, hge, if_false, hle, if_true, leBytes_two]
    have : (n >>> 8) % 256 = n / 256 % 256 := by
      rw [Nat.shiftRight_eq_div_pow]
    rw [this]
  · intro h1 h2
    have hge : ¬ n < 0xfd := by omega
    have hle : ¬ n ≤ 0xffff := by omega
    have hle2 : n ≤ 0xffffffff := h2
    simp only [encodeVarint, hge, if_false, hle, hle2, if_true, leBytes_four]
    have e8 : (n >>> 8) % 256 = n / 256 % 256 := by
      rw [Nat.shiftRight_eq_div_pow]
    have e16 : (n >>> 16) % 256 = n / 256 / 256 % 256 := by
      rw [Nat.shiftRight_eq_div_pow]
      norm_num [Nat.div_div_eq_div_mul]
    have e24 : (n >>> 24) % 256 = n / 256 / 256 / 256 % 256 := by
      rw [Nat.shiftRight_eq_div_pow]
      norm_num [Nat.div_div_eq_div_mul]
    rw [e8, e16, e24]
  · intro h
    have h1 : ¬ n < 0xfd := by omega
    have h2 : ¬ n ≤ 0xffff := by omega
    have h3 : ¬ n ≤ 0xffffffff := by omega
    simp [encodeVarint, h1, h2, h3]

/-! ## Theorems: RIPEMD-160 reference vectors (claim C5) -/

/-- **C5.** The RIPEMD-160 implementation reproduces the standard reference
digests on the empty input and on the UTF-8 bytes of `"abc"`:
`9c1185a5c5e9fc54612808977ee8f548b2258d31` and
`8eb208f7e05d987a9b044a8e98c6b087f15a0bfc`, each 20 bytes. -/
theorem ripemd160_reference_vectors :
    ripemd160 [] =
      [0x9c, 0x11, 0x85, 0xa5, 0xc5, 0xe9, 0xfc, 0x54, 0x61, 0x28,
       0x08, 0x97, 0x7e, 0xe8, 0xf5, 0x48, 0xb2, 0x25, 0x8d, 0x31] ∧
    ripemd160 (utf8Encode "abc") =
      [0x8e, 0xb2, 0x08, 0xf7, 0xe0, 0x5d, 0x98, 0x7a, 0x9b, 0x04,
       0x4a, 0x8e, 0x98, 0xc6, 0xb0, 0x87, 0xf1, 0x5a, 0x0b, 0xfc] ∧
    (ripemd160 []).length = 20 ∧ (ripemd160 (utf8Encode "abc")).length = 20 := by
  set_option maxRecDepth 100000 in decide

/-- Witness for C4: the boundary inputs evaluated concretely. -/
theorem encodeVarint_boundaries_witness :
    encodeVarint 252 = some [252] ∧
    encodeVarint 253 = some (0xfd :: leBytes 2 253) ∧
    encodeVarint 65535 = some (0xfd :: leBytes 2 65535) ∧
    encodeVarint 65536 = some (0xfe :: leBytes 4 65536) ∧
    encodeVarint 4294967295 = some (0xfe :: leBytes 4 4294967295) ∧
    encodeVarint 4294967296 = none :=
  ⟨(encodeVarint_boundaries 252).1 (by decide),
   (encodeVarint_boundaries 253).2.1 (by decide) (by decide),
   (encodeVarint_boundaries 65535).2.1 (by decide) (by decide),
   (encodeVarint_boundaries 65536).2.2.1 (by decide) (by decide),
   (encodeVarint_boundaries 4294967295).2.2.1 (by decide) (by decide),
   (encodeVarint_boundaries 4294967296).2.2.2 (by decide)⟩

theorem headD_getD (l : List Nat) : l.headD 0 = l.head?.getD 0 := by
  cases l <;> rfl

/-! ## Theorems: input-shape validation (claim C2) -/

/-- **C2.** Shape validation precedes all curve arithmetic: a decoded
signature of any length other than 65 fails with an error reporting the
actual length, and a 65-byte signature whose first byte is outside
`[27, 34]` fails with the recovery-flag error.  Both equations hold for
every hash oracle `sha` and every message and address, exhibiting that
the outcome is fixed before any recovery or point computation runs. -/
theorem verify_shape_validation (sha : List Nat → List Nat) (p : Payload)
    (sigBytes : List Nat) (hdec : base64ToBytes p.signature = some sigBytes) :
    (sigBytes.length ≠ 65 →
      verify sha p = .error ("Invalid signature length: " ++ toString sigBytes.length ++
        ", expected 65")) ∧
    (sigBytes.length = 65 → sigBytes.headD 0 < 27 ∨ 34 < sigBytes.headD 0 →
      verify sha p = .error "Invalid recovery flag") := by
  constructor
  · intro hlen
    simp [verify, hdec, verifyBytes, hlen]
  · intro hlen hflag
    have hne : ¬ sigBytes.length ≠ 65 := by omega
    rw [headD_getD] at hflag
    rcases hflag with hflag | hflag
    · simp [verify, hdec, verifyBytes, hne, hflag]
    · have hge : ¬ sigBytes.head?.getD 0 < 27 := by omega
      simp [verify, hdec, verifyBytes, hne, hge, hflag]

/-- Witness for C2: a 3-byte decode fails with the length error; a 65-byte
all-zero decode (first byte `0`, outside `[27, 34]`) fails with the flag
error. -/
theorem verify_shape_validation_witness :
    (base64ToBytes "AQID" = some [1, 2, 3] ∧
      verify (fun _ => []) ⟨.str "m", "a", "AQID"⟩ =
        .error "Invalid signature length: 3, expected 65") ∧
    (base64ToBytes
        "AAAAAAAAAAAAAAAAAAAAAAAAAAAAAAAAAAAAAAAAAAAAAAAAAAAAAAAAAAAAAAAAAAAAAAAAAAAAAAAAAAAAAAA=" =
        some (List.replicate 65 0) ∧
      verify (fun _ => []) ⟨.str "m", "a",
          "AAAAAAAAAAAAAAAAAAAAAAAAAAAAAAAAAAAAAAAAAAAAAAAAAAAAAAAAAAAAAAAAAAAAAAAAAAAAAAAAAAAAAAA="⟩ =
        .error "Invalid recovery flag") :=
  ⟨⟨by decide,
    (verify_shape_validation (fun _ => []) ⟨.str "m", "a", "AQID"⟩ [1, 2, 3] (by decide)).1
      (by decide)⟩,
   ⟨by decide,
    (verify_shape_validation (fun _ => []) ⟨.str "m", "a",
        "AAAAAAAAAAAAAAAAAAAAAAAAAAAAAAAAAAAAAAAAAAAAAAAAAAAAAAAAAAAAAAAAAAAAAAAAAAAAAAAAAAAAAAA="⟩
        (List.replicate 65 0) (by decide)).2 (by decide) (Or.inl (by decide))⟩⟩

/-! ## Theorems: the safe wrapper (claim C9) -/

/-- **C9.** `verifySafe` never throws (it is a total boolean function):
it returns exactly `verify`'s value when `verify` succeeds and `false`
whenever `verify` fails, for every hash oracle and payload. -/
theorem verifySafe_contract (sha : List Nat → List Nat) (p : Payload) :
    (∀ b, verify sha p = .ok b → verifySafe sha p = b) ∧
    (∀ e, verify sha p = .error e → verifySafe sha p = false) := by
  constructor
  · intro b h
    simp [verifySafe, h]
  · intro e h
    simp [verifySafe, h]

/-- Witness for C9: a failing verification (bad signature length) is
converted to `false`. -/
theorem verifySafe_contract_witness :
    verify (fun _ => []) ⟨.str "m", "a", "AQID"⟩ =
      .error "Invalid signature length: 3, expected 65" ∧
    verifySafe (fun _ => []) ⟨.str "m", "a", "AQID"⟩ = false :=
  ⟨by decide,
   (verifySafe_contract (fun _ => []) ⟨.str "m", "a", "AQID"⟩).2
     "Invalid signature length: 3, expected 65" (by decide)⟩

/-! ## Theorems: the recovery flag byte is discarded (claim C10) -/

/-- **C10.** For two decoded signatures that differ only in the first
byte, both first bytes in `[27, 34]`, verification produces identical
outcomes: after validation the flag byte is discarded and all recovery
ids are tried regardless of its value. -/
theorem verify_flag_independent (sha : List Nat → List Nat) (messageBytes : List Nat)
    (address : String) (rest : List Nat) (b1 b2 : Nat)
    (h1a : 27 ≤ b1) (h1b : b1 ≤ 34) (h2a : 27 ≤ b2) (h2b : b2 ≤ 34)
    (hr : rest.length = 64) :
    verifyBytes sha messageBytes address (b1 :: rest) =
      verifyBytes sha messageBytes address (b2 :: rest) := by
  have hl1 : ¬ (b1 :: rest).length ≠ 65 := by simp [hr]
  have hl2 : ¬ (b2 :: rest).length ≠ 65 := by simp [hr]
  have hf1 : ¬ b1 < 27 := by omega
  have hf2 : ¬ 34 < b1 := by omega
  have hf3 : ¬ b2 < 27 := by omega
  have hf4 : ¬ 34 < b2 := by omega
  simp [verifyBytes, hl1, hl2, hf1, hf2, hf3, hf4]

/-- Witness for C10: flags 27 and 34 over the same 64 remaining bytes. -/
theorem verify_flag_independent_witness :
    27 ≤ 27 ∧ 34 ≤ 34 ∧ (List.replicate 64 0).length = 64 ∧
    verifyBytes (fun _ => []) [] "a" (27 :: List.replicate 64 0) =
      verifyBytes (fun _ => []) [] "a" (34 :: List.replicate 64 0) :=
  ⟨by decide, by decide, by decide,
   verify_flag_independent (fun _ => []) [] "a" (List.replicate 64 0) 27 34
     (by decide) (by decide) (by decide) (by decide) (by decide)⟩

/-! ## Theorems: public-key recovery is total (claim C6) -/

/-- **C6.** For a 32-byte hash, a 64-byte signature body and a recovery id
in `0..3`, `recoverPublicKey` never throws — it is a total function into
`Option Point` — and returns the not-recoverable result `none` whenever
`r ≥ N` or `s ≥ N`, and whenever the derived `x = r + (id >> 1)·N` is
`≥ P`; in every case the result is either `none` (each remaining `none`
arises from an intermediate point operation yielding the point at
infinity) or an EC point. -/
theorem recoverPublicKey_not_recoverable (messageHash sig : List Nat) (recId : Nat)
    (hhash : messageHash.length = 32) (hsig : sig.length = 64) (hrec : recId < 4) :
    (beNat (sig.take 32) ≥ SECP256K1_N ∨ beNat ((sig.drop 32).take 32) ≥ SECP256K1_N →
      recoverPublicKey messageHash sig recId = none) ∧
    (beNat (sig.take 32) + (recId >>> 1) * SECP256K1_N ≥ SECP256K1_P →
      recoverPublicKey messageHash sig recId = none) ∧
    (recoverPublicKey messageHash sig recId = none ∨
      ∃ pt, recoverPublicKey messageHash sig recId = some pt) := by
  have hne : ¬ sig.length ≠ 64 := by omega
  refine ⟨?_, ?_, ?_⟩
  · intro h
    simp only [recoverPublicKey]
    rw [if_neg hne, if_pos h]
  · intro h
    simp only [recoverPublicKey]
    rw [if_neg hne]
    by_cases hg : beNat (sig.take 32) ≥ SECP256K1_N ∨ beNat ((sig.drop 32).take 32) ≥ SECP256K1_N
    · rw [if_pos hg]
    · rw [if_neg hg, if_pos h]
  · cases hres : recoverPublicKey messageHash sig recId with
    | none => exact Or.inl rfl
    | some pt => exact Or.inr ⟨pt, rfl⟩

/-- Witness for C6: a signature whose `r` limb is `2^256 − 1 ≥ N` is not
recoverable. -/
theorem recoverPublicKey_not_recoverable_witness :
    (List.replicate 32 1 : List Nat).length = 32 ∧
    (List.replicate 32 255 ++ List.replicate 32 0 : List Nat).length = 64 ∧
    beNat ((List.replicate 32 255 ++ List.replicate 32 0 : List Nat).take 32) ≥ SECP256K1_N ∧
    recoverPublicKey (List.replicate 32 1) (List.replicate 32 255 ++ List.replicate 32 0) 0 =
      none :=
  ⟨by decide, by decide, by decide,
   (recoverPublicKey_not_recoverable (List.replicate 32 1)
       (List.replicate 32 255 ++ List.replicate 32 0) 0
       (by decide) (by decide) (by decide)).1 (Or.inl (by decide))⟩

/-! ## Theorems: the message hash preimage (claim C3) -/

theorem writeAt_step (xs rest zs : List Nat) :
    writeAt (xs ++ rest) xs.length zs = (xs ++ zs) ++ rest.drop zs.length := by
  unfold writeAt
  rw [List.take_left]
  rw [List.drop_append]

theorem writeAt_head (arr src : List Nat) :
    writeAt arr 0 src = src ++ arr.drop src.length := by
  simp [writeAt]

theorem drop_replicate_append (n : Nat) (l : List Nat) :
    (List.replicate n (0 : Nat) ++ l).drop n = l :=
  List.drop_left' (by simp)

/-- The four consecutive in-place copies of `createMessageHash`, starting
from a zeroed buffer of the exact total size, produce the plain
concatenation of the four parts. -/
theorem writeAt_chain (a b c d : List Nat) :
    writeAt (writeAt (writeAt (writeAt
        (List.replicate (a.length + b.length + c.length + d.length) 0) 0 a)
      a.length b) (a.length + b.length) c) (a.length + b.length + c.length) d =
    a ++ (b ++ (c ++ d)) := by
  have hrep : List.replicate (a.length + b.length + c.length + d.length) (0 : Nat) =
      List.replicate a.length 0 ++ (List.replicate b.length 0 ++
        (List.replicate c.length 0 ++ List.replicate d.length 0)) := by
    rw [show a.length + b.length + c.length + d.length =
        a.length + (b.length + (c.length + d.length)) by omega,
      List.replicate_add, List.replicate_add, List.replicate_add]
  rw [hrep, writeAt_head, drop_replicate_append]
  rw [writeAt_step a
    (List.replicate b.length 0 ++ (List.replicate c.length 0 ++ List.replicate d.length 0)) b,
    drop_replicate_append]
  rw [show a.length + b.length = ((a ++ b : List Nat)).length from (List.length_append a b).symm]
  rw [writeAt_step (a ++ b) (List.replicate c.length 0 ++ List.replicate d.length 0) c,
    drop_replicate_append]
  rw [show ((a ++ b : List Nat)).length + c.length = ((a ++ b ++ c : List Nat)).length from
    (List.length_append (a ++ b) c).symm]
  rw [writeAt_step (a ++ b ++ c) (List.replicate d.length 0) d]
  simp [List.append_assoc, List.drop_replicate]

theorem encodeVarint_isSome (n : Nat) (h : n ≤ 4294967295) :
    ∃ v, encodeVarint n = some v := by
  unfold encodeVarint
  split_ifs with h1 h2 h3
  · exact ⟨_, rfl⟩
  · exact ⟨_, rfl⟩
  · exact ⟨_, rfl⟩

/-- **C3.** `createMessageHash` is the double application of the SHA-256
oracle to `varint(len(prefix)) ‖ prefix ‖ varint(len(message)) ‖ message`,
where the prefix is the UTF-8 encoding of `"Bitcoin Signed Message:\n"`
(24 bytes, so its varint is the single byte `24`); stated for every
message a varint can measure. -/
theorem createMessageHash_spec (sha : List Nat → List Nat) (msg : List Nat)
    (h : msg.length ≤ 4294967295) :
    ∃ vm, encodeVarint msg.length = some vm ∧
      encodeVarint (utf8Encode messageSigningLiteral).length = some [24] ∧
      createMessageHash sha msg =
        some (sha (sha ([24] ++ (utf8Encode messageSigningLiteral ++ (vm ++ msg))))) := by
  obtain ⟨vm, hvm⟩ := encodeVarint_isSome msg.length h
  have hpv : encodeVarint (utf8Encode messageSigningLiteral).length = some [24] := by decide
  refine ⟨vm, hvm, hpv, ?_⟩
  simp only [createMessageHash, hpv, hvm]
  rw [writeAt_chain [24] (utf8Encode messageSigningLiteral) vm msg]
  rfl

/-- Witness for C3: a concrete two-byte message under a concrete hash
oracle. -/
theorem createMessageHash_spec_witness :
    ([104, 105] : List Nat).length ≤ 4294967295 ∧
    ∃ vm, encodeVarint ([104, 105] : List Nat).length = some vm ∧
      encodeVarint (utf8Encode messageSigningLiteral).length = some [24] ∧
      createMessageHash (fun l => l.take 32) [104, 105] =
        some ((fun l : List Nat => l.take 32)
          ((fun l : List Nat => l.take 32)
            ([24] ++ (utf8Encode messageSigningLiteral ++ (vm ++ [104, 105]))))) :=
  ⟨by decide, createMessageHash_spec (fun l => l.take 32) [104, 105] (by decide)⟩

/-! ## Theorems: the recovery search (claim C1) -/

theorem searchCompressions_pair_eq_or (sha : List Nat → List Nat) (pk : Point)
    (addr : String) :
    searchCompressions sha pk addr [true, false] =
      ((publicKeyToAddress sha pk true == addr) || (publicKeyToAddress sha pk false == addr)) := by
  simp only [searchCompressions]
  by_cases h1 : publicKeyToAddress sha pk true = addr <;>
    by_cases h2 : publicKeyToAddress sha pk false = addr <;> simp [h1, h2]

theorem searchCompressions_pair_iff (sha : List Nat → List Nat) (pk : Point)
    (addr : String) :
    searchCompressions sha pk addr [true, false] = true ↔
      ∃ c, publicKeyToAddress sha pk c = addr := by
  rw [searchCompressions_pair_eq_or]
  constructor
  · intro h
    rcases Bool.or_eq_true_iff.mp h with h | h
    · exact ⟨true, by simpa using h⟩
    · exact ⟨false, by simpa using h⟩
  · rintro ⟨c, hc⟩
    cases c
    · exact Bool.or_eq_true_iff.mpr (Or.inr (by simpa using hc))
    · exact Bool.or_eq_true_iff.mpr (Or.inl (by simpa using hc))

theorem searchRecoveryIds_eq_any (sha : List Nat → List Nat)
    (messageHash signatureData : List Nat) (addr : String) (ids : List Nat) :
    searchRecoveryIds sha messageHash signatureData addr ids =
      ids.any fun id =>
        match recoverPublicKey messageHash signatureData id with
        | some pk => searchCompressions sha pk addr [true, false]
        | none => false := by
  induction ids with
  | nil => rfl
  | cons id ids ih =>
    simp only [searchRecoveryIds, List.any_cons]
    cases hrec : recoverPublicKey messageHash signatureData id with
    | none => simp [ih]
    | some pk =>
      cases hsc : searchCompressions sha pk addr [true, false] with
      | true => simp [hsc]
      | false => simp [hsc, ih]

theorem searchRecoveryIds_true_iff (sha : List Nat → List Nat)
    (messageHash signatureData : List Nat) (addr : String) (ids : List Nat) :
    searchRecoveryIds sha messageHash signatureData addr ids = true ↔
      ∃ id ∈ ids, ∃ pk, recoverPublicKey messageHash signatureData id = some pk ∧
        ∃ c, publicKeyToAddress sha pk c = addr := by
  rw [searchRecoveryIds_eq_any, List.any_eq_true]
  refine exists_congr fun id => and_congr_right fun _ => ?_
  cases hrec : recoverPublicKey messageHash signatureData id with
  | none => simp
  | some pk => simp [searchCompressions_pair_iff]

theorem searchRecoveryIds_eq_orderedScan (sha : List Nat → List Nat)
    (messageHash signatureData : List Nat) (addr : String) :
    searchRecoveryIds sha messageHash signatureData addr [0, 1, 2, 3] =
      searchOrder.any (candidateMatches sha messageHash signatureData addr) := by
  simp only [searchRecoveryIds_eq_any, searchOrder, candidateMatches, List.any_cons,
    List.any_nil, searchCompressions_pair_eq_or]
  cases recoverPublicKey messageHash signatureData 0 <;>
    cases recoverPublicKey messageHash signatureData 1 <;>
    cases recoverPublicKey messageHash signatureData 2 <;>
    cases recoverPublicKey messageHash signatureData 3 <;>
    simp [Bool.or_assoc]

/-- **C1.** For a payload whose signature decodes to 65 bytes with first
byte in `[27, 34]` (and a message the varint encoder can measure, so the
hash exists): `verify` equals the early-exit scan of the eight candidates
in canonical order — recovery id ascending, compressed before
uncompressed — returning `.ok true` at the first match; it returns
`.ok true` iff some recovery id `0..3` and compression flag yield a
recovered key whose derived Base58Check address equals the claimed one;
and when the candidates are exhausted it throws (is an `.error`), never
returning `false`. -/
theorem verify_search_characterization (sha : List Nat → List Nat) (p : Payload)
    (sigBytes messageHash : List Nat)
    (hdec : base64ToBytes p.signature = some sigBytes)
    (hlen : sigBytes.length = 65)
    (hf1 : 27 ≤ sigBytes.headD 0) (hf2 : sigBytes.headD 0 ≤ 34)
    (hhash : createMessageHash sha (messageBytesOf p.message) = some messageHash) :
    (verify sha p =
      if searchOrder.any (candidateMatches sha messageHash sigBytes.tail p.address) then
        .ok true
      else .error "Unable to recover public key from signature") ∧
    (verify sha p = .ok true ↔
      ∃ id, id < 4 ∧ ∃ pk, recoverPublicKey messageHash sigBytes.tail id = some pk ∧
        ∃ c, publicKeyToAddress sha pk c = p.address) ∧
    verify sha p ≠ .ok false := by
  have hverify : verify sha p =
      if searchRecoveryIds sha messageHash sigBytes.tail p.address [0, 1, 2, 3] then
        .ok true
      else .error "Unable to recover public key from signature" := by
    simp only [verify, hdec, verifyBytes]
    rw [if_neg (show ¬ sigBytes.length ≠ 65 by omega),
      if_neg (show ¬ sigBytes.headD 0 < 27 by omega),
      if_neg (show ¬ 34 < sigBytes.headD 0 by omega)]
    simp only [hhash]
  have hmem : ∀ id : Nat, id ∈ ([0, 1, 2, 3] : List Nat) ↔ id < 4 := by
    intro id
    simp only [List.mem_cons, List.not_mem_nil, or_false]
    omega
  refine ⟨?_, ?_, ?_⟩
  · rw [hverify, searchRecoveryIds_eq_orderedScan]
  · rw [hverify]
    by_cases hs : searchRecoveryIds sha messageHash sigBytes.tail p.address [0, 1, 2, 3] = true
    · have hex := (searchRecoveryIds_true_iff sha messageHash sigBytes.tail p.address
        [0, 1, 2, 3]).mp hs
      rw [if_pos hs]
      constructor
      · intro _
        obtain ⟨id, hid, rest⟩ := hex
        exact ⟨id, (hmem id).mp hid, rest⟩
      · intro _
        rfl
    · rw [if_neg hs]
      constructor
      · intro h
        exact absurd h (by simp)
      · rintro ⟨id, hid, rest⟩
        exact absurd ((searchRecoveryIds_true_iff sha messageHash sigBytes.tail p.address
          [0, 1, 2, 3]).mpr ⟨id, (hmem id).mpr hid, rest⟩) hs
  · rw [hverify]
    by_cases hs : searchRecoveryIds sha messageHash sigBytes.tail p.address [0, 1, 2, 3] = true
    · simp [hs]
    · simp [hs]

/-- Witness for C1: a concrete 65-byte signature (flag 27, zero body)
under a concrete hash oracle; the characterization is instantiated and
its hypotheses discharged by evaluation. -/
theorem verify_search_characterization_witness :
    base64ToBytes
        "GwAAAAAAAAAAAAAAAAAAAAAAAAAAAAAAAAAAAAAAAAAAAAAAAAAAAAAAAAAAAAAAAAAAAAAAAAAAAAAAAAAAAAA=" =
      some (27 :: List.replicate 64 0) ∧
    ((27 :: List.replicate 64 0 : List Nat).length = 65 ∧
      27 ≤ (27 :: List.replicate 64 0 : List Nat).headD 0 ∧
      (27 :: List.replicate 64 0 : List Nat).headD 0 ≤ 34) ∧
    (verify (fun _ => List.replicate 32 1)
        ⟨.str "m", "a",
          "GwAAAAAAAAAAAAAAAAAAAAAAAAAAAAAAAAAAAAAAAAAAAAAAAAAAAAAAAAAAAAAAAAAAAAAAAAAAAAAAAAAAAAA="⟩ =
        .ok true ↔
      ∃ id, id < 4 ∧
        ∃ pk, recoverPublicKey (List.replicate 32 1) (27 :: List.replicate 64 0 : List Nat).tail
            id = some pk ∧
          ∃ c, publicKeyToAddress (fun _ => List.replicate 32 1) pk c = "a") :=
  ⟨by decide, ⟨by decide, by decide, by decide⟩,
   (verify_search_characterization (fun _ => List.replicate 32 1)
      ⟨.str "m", "a",
        "GwAAAAAAAAAAAAAAAAAAAAAAAAAAAAAAAAAAAAAAAAAAAAAAAAAAAAAAAAAAAAAAAAAAAAAAAAAAAAAAAAAAAAA="⟩
      (27 :: List.replicate 64 0) (List.replicate 32 1)
      (by decide) (by decide) (by decide) (by decide) (by decide)).2.1⟩

/-! ## Theorems: payload parsing (claim C7) -/

/-- **C7, counterexample.** For the message `"0x  "` all three stated
detection conditions hold — it starts with `0x`, has even total length,
and matches `/^0x[a-f\d\s]+$/i` — yet `parsePayload` treats it as plain
text: the resulting bytes are the UTF-8 encoding of the literal, not the
(empty) byte-pair decode of the whitespace-stripped hex part, because
`toHexString` returns the empty string and the source's truthiness test
`if (hex)` rejects it. -/
theorem parsePayload_hex_detection_cex :
    ("0x  ".data.take 2 = ['0', 'x'] ∧ "0x  ".length % 2 = 0 ∧
      "0x  ".data.drop 2 ≠ [] ∧ ("0x  ".data.drop 2).all isHexWsChar = true) ∧
    (parsePayload ⟨.str "0x  ", "a", "s"⟩).message.bytes = utf8Encode "0x  " ∧
    (parsePayload ⟨.str "0x  ", "a", "s"⟩).message.bytes ≠
      hexPairs (("0x  ".data.drop 2).filter fun c => !isJsWhitespace c) := by
  decide

/-- **C7, amended.** A string message is treated as hex exactly when it
starts with `0x`, has even total length, matches `/^0x[a-f\d\s]+$/i`,
**and** the portion after the prefix contains at least one
non-whitespace character; in that case the resulting bytes are the
byte pairs of the whitespace-stripped portion (an odd trailing digit is
dropped, mirroring the truncated target-array length); in every other
case the bytes are the UTF-8 encoding of the literal text.
`parsePayload` is a total function — no input makes it fail. -/
theorem parsePayload_hex_detection (s addr sig : String) :
    (s.data.take 2 = ['0', 'x'] ∧ s.length % 2 = 0 ∧ s.data.drop 2 ≠ [] ∧
        (s.data.drop 2).all isHexWsChar = true ∧
        ((s.data.drop 2).filter fun c => !isJsWhitespace c) ≠ [] →
      (parsePayload ⟨.str s, addr, sig⟩).message.bytes =
        hexPairs ((s.data.drop 2).filter fun c => !isJsWhitespace c)) ∧
    (¬ (s.data.take 2 = ['0', 'x'] ∧ s.length % 2 = 0 ∧ s.data.drop 2 ≠ [] ∧
        (s.data.drop 2).all isHexWsChar = true ∧
        ((s.data.drop 2).filter fun c => !isJsWhitespace c) ≠ []) →
      (parsePayload ⟨.str s, addr, sig⟩).message.bytes = utf8Encode s) := by
  constructor
  · rintro ⟨h1, h2, h3, h4, h5⟩
    have htox : toHexString s = some ⟨(s.data.drop 2).filter fun c => !isJsWhitespace c⟩ := by
      simp only [toHexString]
      rw [if_pos ⟨h1, h2, h3, h4⟩]
    have hne : (⟨(s.data.drop 2).filter fun c => !isJsWhitespace c⟩ : String).data ≠ [] := h5
    simp only [parsePayload, jsStringOf, htox]
    rw [if_pos hne]
  · intro hneg
    by_cases hg : s.data.take 2 = ['0', 'x'] ∧ s.length % 2 = 0 ∧ s.data.drop 2 ≠ [] ∧
        (s.data.drop 2).all isHexWsChar = true
    · have h5 : ¬ ((s.data.drop 2).filter fun c => !isJsWhitespace c) ≠ [] := fun h5 =>
        hneg ⟨hg.1, hg.2.1, hg.2.2.1, hg.2.2.2, h5⟩
      have htox : toHexString s = some ⟨(s.data.drop 2).filter fun c => !isJsWhitespace c⟩ := by
        simp only [toHexString]
        rw [if_pos hg]
      have hne : ¬ (⟨(s.data.drop 2).filter fun c => !isJsWhitespace c⟩ : String).data ≠ [] := h5
      simp only [parsePayload, jsStringOf, htox]
      rw [if_neg hne]
    · have htox : toHexString s = none := by
        simp only [toHexString]
        rw [if_neg hg]
      simp only [parsePayload, jsStringOf, htox]

/-- Witness for the amended C7: a hex-detected message decodes to its
byte pairs; a plain-text message is UTF-8 encoded. -/
theorem parsePayload_hex_detection_witness :
    (parsePayload ⟨.str "0x1234", "a", "s"⟩).message.bytes =
      hexPairs (("0x1234".data.drop 2).filter fun c => !isJsWhitespace c) ∧
    (parsePayload ⟨.str "hello", "a", "s"⟩).message.bytes = utf8Encode "hello" :=
  ⟨(parsePayload_hex_detection "0x1234" "a" "s").1
    ⟨by decide, by decide, by decide, by decide, by decide⟩,
   (parsePayload_hex_detection "hello" "a" "s").2 (by decide)⟩

/-! ## Theorems: the RPC client (claim C8) -/

/-- **C8.** The RPC client returns the boolean `result` of a non-error
reply; when an `error` member is present (on a reply observing the
JSON-RPC discipline that `result` is null alongside an error), it fails
with that error; and `rpcVerifySafe` is total and returns `false` on
every failure — a rejected fetch, a malformed reply (processed into an
error), an RPC-reported error, or a falsy `result`. -/
theorem rpc_verify_contract (net : Except String RpcResponse) :
    (∀ resp b, net = .ok resp → resp.result = some b → rpcVerifyNet net = .ok b) ∧
    (∀ resp e, net = .ok resp → (resp.result = none ∨ resp.error = none) →
      resp.error = some e → rpcVerifyNet net = .error e) ∧
    (∀ e, net = .error e → rpcVerifySafe net = false) ∧
    (∀ b, rpcVerifyNet net = .ok b → rpcVerifySafe net = b) ∧
    (∀ e, rpcVerifyNet net = .error e → rpcVerifySafe net = false) := by
  refine ⟨?_, ?_, ?_, ?_, ?_⟩
  · intro resp b hnet hres
    simp [rpcVerifyNet, hnet, rpcVerify, hres]
  · intro resp e hnet hwf herr
    rcases hwf with hwf | hwf
    · simp [rpcVerifyNet, hnet, rpcVerify, hwf, herr]
    · rw [herr] at hwf
      exact absurd hwf (by simp)
  · intro e hnet
    simp [rpcVerifySafe, rpcVerifyNet, hnet]
  · intro b h
    simp [rpcVerifySafe, h]
  · intro e h
    simp [rpcVerifySafe, h]

/-- Witness for C8: a `{result: true}` reply verifies `true`; a
`{result: null, error: e}` reply fails with `e` and its safe wrapper
returns `false`; a network failure makes the safe wrapper return
`false`. -/
theorem rpc_verify_contract_witness :
    rpcVerifyNet (.ok ⟨some true, none⟩) = .ok true ∧
    rpcVerifyNet (.ok ⟨none, some "rpc error"⟩) = .error "rpc error" ∧
    rpcVerifySafe (.ok ⟨none, some "rpc error"⟩) = false ∧
    rpcVerifySafe (.error "network down") = false :=
  ⟨(rpc_verify_contract (.ok ⟨some true, none⟩)).1 _ _ rfl rfl,
   (rpc_verify_contract (.ok ⟨none, some "rpc error"⟩)).2.1 _ _ rfl (Or.inl rfl) rfl,
   (rpc_verify_contract (.ok ⟨none, some "rpc error"⟩)).2.2.2.2 _
     ((rpc_verify_contract (.ok ⟨none, some "rpc error"⟩)).2.1 _ _ rfl (Or.inl rfl) rfl),
   (rpc_verify_contract (.error "network down")).2.2.1 _ rfl⟩

end BtcVerify
